import Mathlib

/-!
# Verification of the StockTradebyZ concurrent sync core

Shallow embedding of the task-execution engine of the repository:

* `ImprovedTaskQueue` (backend/app/services/improved_task_queue.py):
  task lifecycle, worker loop, cancellation;
* `RateLimiter` (backend/app/services/task_queue.py): token bucket;
* `ConcurrentRateLimiter` and `BatchWriter`
  (backend/app/services/high_performance_sync.py);
* `BatchSyncManager` (backend/app/services/batch_sync_manager.py):
  batch planning, execution, progress store.

Wall-clock readings (`time.time()`, `loop.time()`, `datetime.now()`,
`date.today()`) are passed in explicitly as rational (or natural) numbers.
Python dictionaries keyed by id are modelled as association lists.
-/

namespace StockTrade

/-! ## Task queue: improved_task_queue.py -/

/-- `TaskStatus` enum (improved_task_queue.py lines 21-28). -/
inductive TaskStatus where
  | pending
  | running
  | paused
  | success
  | failed
  | cancelled
deriving DecidableEq, Repr

/-- `CancellableTask` controller state (lines 31-66): the cancellation flag
and the pause flag.  The asyncio pause event is determined by `is_paused`. -/
structure CancellableTask where
  should_cancel : Bool
  is_paused : Bool
deriving DecidableEq, Repr

/-- `CancellableTask.__init__`: both flags start cleared. -/
def CancellableTask.new : CancellableTask := ⟨false, false⟩

/-- `check_cancelled` (line 41). -/
def CancellableTask.check_cancelled (c : CancellableTask) : Bool :=
  c.should_cancel

/-- `request_cancel` (line 45): sets the cancellation flag. -/
def CancellableTask.request_cancel (c : CancellableTask) : CancellableTask :=
  { c with should_cancel := true }

/-- `TaskInfo` (lines 69-102).  The `params`/`result` payloads are opaque to
the queue; `result` is kept as an optional string.  Timestamps are rationals
supplied by the caller of each operation. -/
structure TaskInfo where
  task_id : String
  task_type : String
  status : TaskStatus
  progress : ℚ
  message : String
  result : Option String
  error : Option String
  created_at : ℚ
  started_at : Option ℚ
  completed_at : Option ℚ
  controller : Option CancellableTask
deriving DecidableEq, Repr

/-- The queue's `tasks` dict (`self.tasks: Dict[str, TaskInfo]`), as an
association list keyed by task id. -/
def TaskMap : Type := List (String × TaskInfo)

/-- Dictionary lookup `self.tasks.get(task_id)`. -/
def lookupTask : TaskMap → String → Option TaskInfo
  | [], _ => none
  | (k, v) :: rest, tid => if k = tid then some v else lookupTask rest tid

/-- Dictionary assignment `self.tasks[task_id] = task` (replace or append). -/
def setTask : TaskMap → String → TaskInfo → TaskMap
  | [], tid, t => [(tid, t)]
  | (k, v) :: rest, tid, t =>
      if k = tid then (tid, t) :: rest else (k, v) :: setTask rest tid t

/-- `submit` (lines 173-199): create a PENDING `TaskInfo` with a fresh
controller and store it (the queue side; the asyncio queue itself is the
list of ids handed to `workerLoop`). -/
def submitTask (tasks : TaskMap) (tid task_type : String) (now : ℚ) : TaskMap :=
  setTask tasks tid
    { task_id := tid
      task_type := task_type
      status := .pending
      progress := 0
      message := "任务已加入队列，等待执行"
      result := none
      error := none
      created_at := now
      started_at := none
      completed_at := none
      controller := some CancellableTask.new }

/-- How a run of the executor coroutine ends: normal return, a raised
`Exception` (with its `str(e)` text), or `asyncio.CancelledError`. -/
inductive ExecEnd where
  | normal
  | excRaise (msg : String)
  | cancelledError
deriving DecidableEq, Repr

/-- An executor closure: it receives the task (already set RUNNING) and may
mutate its fields (progress, message, result, controller flags); the second
component is how it terminates. -/
def Executor : Type := TaskInfo → TaskInfo × ExecEnd

/-- One iteration of `_worker` processing a dequeued `(task_id, executor)`
pair (improved_task_queue.py lines 239-287).  Returns the updated task map
and whether the executor was invoked.

* unknown task id → `continue` (line 241);
* `task.controller.check_cancelled()` true → status CANCELLED, executor not
  invoked (lines 244-247); a `None` controller raises `AttributeError`,
  caught by the worker's outer `except Exception` (line 294), so the map is
  left unchanged;
* otherwise status RUNNING, `started_at`, progress 0 (lines 250-253), the
  executor runs, and the end of the run decides SUCCESS / CANCELLED /
  FAILED (lines 257-287). -/
def runWorkerItem (tasks : TaskMap) (tid : String) (ex : Executor)
    (tStart tEnd : ℚ) : TaskMap × Bool :=
  match lookupTask tasks tid with
  | none => (tasks, false)
  | some task =>
    match task.controller with
    | none => (tasks, false)
    | some c0 =>
      if c0.check_cancelled then
        (setTask tasks tid
          { task with status := .cancelled, message := "任务在执行前被取消" },
         false)
      else
        let t1 := { task with
          status := .running
          started_at := some tStart
          message := "任务正在执行..."
          progress := 0 }
        let r := ex t1
        let t3 :=
          match r.2 with
          | .normal =>
            match r.1.controller with
            | some c =>
              if c.check_cancelled = false then
                { r.1 with status := .success, completed_at := some tEnd,
                           progress := 100, message := "任务执行成功" }
              else
                { r.1 with status := .cancelled, completed_at := some tEnd,
                           message := "任务已被取消" }
            | none =>
              -- `task.controller.check_cancelled()` on `None` raises inside
              -- the inner try and is caught at line 279 as a failure
              { r.1 with status := .failed, completed_at := some tEnd,
                         error := some "AttributeError" }
          | .excRaise msg =>
              { r.1 with status := .failed, completed_at := some tEnd,
                         error := some msg,
                         message := "任务执行失败: " ++ msg }
          | .cancelledError =>
              { r.1 with status := .cancelled, completed_at := some tEnd,
                         message := "任务被系统中断" }
        (setTask tasks tid t3, true)

/-- The worker loop draining a queue of `(task_id, executor)` pairs in FIFO
order (the `while self.is_running` loop of `_worker`).  Returns the final
task map and the invocation log: the ids whose executor was invoked, in
order. -/
def workerLoop (tasks : TaskMap) :
    List (String × Executor) → ℚ → ℚ → TaskMap × List String
  | [], _, _ => (tasks, [])
  | (tid, ex) :: rest, a, b =>
    let st := runWorkerItem tasks tid ex a b
    let fin := workerLoop st.1 rest a b
    (fin.1, (if st.2 then [tid] else []) ++ fin.2)

/-- `cancel_task` (lines 307-334).  Returns the boolean result and the
updated task map.  Note that the PENDING branch changes only the status and
message — it does not touch the controller's cancellation flag. -/
def cancel_task (tasks : TaskMap) (tid : String) : Bool × TaskMap :=
  match lookupTask tasks tid with
  | none => (false, tasks)
  | some task =>
    if task.status = .pending then
      (true, setTask tasks tid
        { task with status := .cancelled, message := "任务已被取消（未开始执行）" })
    else if task.status = .running ∧ task.controller.isSome then
      match task.controller with
      | some c =>
          (true, setTask tasks tid
            { task with controller := some c.request_cancel,
                        message := "正在取消任务..." })
      | none => (false, tasks)
    else
      (false, tasks)

/-! ## RateLimiter: task_queue.py lines 76-136 (token bucket) -/

/-- `RateLimiter` state (task_queue.py lines 82-96): configured rate and
burst capacity, fractional token count, last-update timestamp.  `burst_size`
is an `int` in the source; its numeric value is kept as a rational since it
is only ever compared and combined with the fractional token count. -/
structure RateLimiter where
  requests_per_second : ℚ
  burst_size : ℚ
  tokens : ℚ
  last_update : ℚ
deriving DecidableEq, Repr

/-- `RateLimiter.__init__` at construction time `now`:
`tokens = burst_size`, `last_update = time.time()`. -/
def RateLimiter.init (rate burst now : ℚ) : RateLimiter :=
  { requests_per_second := rate, burst_size := burst,
    tokens := burst, last_update := now }

/-- One lazy refill at clock reading `now` (lines 105-113 and 127-133):
`last_update := now`;
`tokens := min(burst_size, tokens + elapsed * requests_per_second)`. -/
def refillAt (rl : RateLimiter) (now : ℚ) : RateLimiter :=
  { rl with
    last_update := now
    tokens := min rl.burst_size
      (rl.tokens + (now - rl.last_update) * rl.requests_per_second) }

/-- The sleep chunk computed in one wait-loop iteration (lines 117-122):
`min((n - tokens) / requests_per_second, 1.0)`. -/
def waitChunk (rl : RateLimiter) (n : ℚ) : ℚ :=
  min ((n - rl.tokens) / rl.requests_per_second) 1

/-- The `while self.tokens < tokens` wait loop of `acquire` (lines
116-133).  `ts` is the sequence of clock readings taken after each sleep;
the loop re-checks the token count, sleeps `waitChunk`, refills at the next
reading and repeats.  Returns the limiter state at loop exit together with
the list of sleep durations, or `none` if the supplied readings run out
while tokens are still insufficient (the real loop would keep waiting). -/
def acquireLoop (n : ℚ) : RateLimiter → List ℚ →
    Option (RateLimiter × List ℚ)
  | rl, [] => if n ≤ rl.tokens then some (rl, []) else none
  | rl, t :: ts =>
    if n ≤ rl.tokens then some (rl, [])
    else
      match acquireLoop n (refillAt rl t) ts with
      | some (rl2, ws) => some (rl2, waitChunk rl n :: ws)
      | none => none

/-- `acquire(tokens=n)` (lines 98-136): refill at the entry clock reading
`t0`, run the wait loop over the subsequent readings `ts`, then deduct
exactly `n` tokens.  Returns the final limiter state and the sleeps. -/
def RateLimiter.acquire (rl : RateLimiter) (n : ℚ) (t0 : ℚ) (ts : List ℚ) :
    Option (RateLimiter × List ℚ) :=
  match acquireLoop n (refillAt rl t0) ts with
  | some (rl2, ws) => some ({ rl2 with tokens := rl2.tokens - n }, ws)
  | none => none

/-! ## ConcurrentRateLimiter: high_performance_sync.py lines 32-62 -/

/-- `ConcurrentRateLimiter` state: fixed semaphore capacity
`max_concurrent`, configured `rate_per_second`, the number of slots
currently taken (`in_flight`; the asyncio semaphore's value is
`max_concurrent - in_flight`), and `last_request_time` (initially 0). -/
structure ConcurrentRateLimiter where
  max_concurrent : ℕ
  rate_per_second : ℚ
  in_flight : ℕ
  last_request_time : ℚ
deriving DecidableEq, Repr

/-- `ConcurrentRateLimiter.__init__` (lines 32-43). -/
def ConcurrentRateLimiter.init (mc : ℕ) (rate : ℚ) : ConcurrentRateLimiter :=
  { max_concurrent := mc, rate_per_second := rate,
    in_flight := 0, last_request_time := 0 }

/-- `acquire` (lines 45-58): first take a semaphore slot (modelled by the
precondition `in_flight < max_concurrent`; with all slots taken the real
call blocks, returned here as `none`), then under the lock read the clock
(`now`), sleep the remainder of the minimum interval if the elapsed time is
too small, and record a fresh clock reading `now2` as the new
`last_request_time`.  Returns the new state and the sleep duration. -/
def ConcurrentRateLimiter.acquire (s : ConcurrentRateLimiter)
    (now now2 : ℚ) : Option (ConcurrentRateLimiter × ℚ) :=
  if s.in_flight < s.max_concurrent then
    let time_since_last := now - s.last_request_time
    let min_interval := 1 / s.rate_per_second
    let sleep := if time_since_last < min_interval
      then min_interval - time_since_last else 0
    some ({ s with in_flight := s.in_flight + 1,
                   last_request_time := now2 }, sleep)
  else none

/-- `release` (lines 60-62): frees the semaphore slot only. -/
def ConcurrentRateLimiter.release (s : ConcurrentRateLimiter) :
    ConcurrentRateLimiter :=
  { s with in_flight := s.in_flight - 1 }

/-! ## BatchWriter: high_performance_sync.py lines 65-112 -/

/-- `BatchWriter` state (lines 71-82): size threshold, time threshold,
buffered items and the last-flush timestamp. -/
structure BatchWriter (α : Type) where
  batch_size : ℕ
  flush_interval : ℚ
  buffer : List α
  last_flush : ℚ

/-- `add(item)` at clock reading `now` (lines 84-105): append under the
lock, report whether a flush should occur
(`len(buffer) >= batch_size or now - last_flush >= flush_interval`),
resetting `last_flush` when it should.  The buffer itself is untouched. -/
def BatchWriter.add {α : Type} (b : BatchWriter α) (item : α) (now : ℚ) :
    BatchWriter α × Bool :=
  let buf := b.buffer ++ [item]
  let should : Bool :=
    decide (b.batch_size ≤ buf.length) ||
    decide (b.flush_interval ≤ now - b.last_flush)
  ({ b with buffer := buf,
            last_flush := if should then now else b.last_flush }, should)

/-- `get_batch` (lines 107-112): atomically copy and clear the buffer. -/
def BatchWriter.get_batch {α : Type} (b : BatchWriter α) :
    List α × BatchWriter α :=
  (b.buffer, { b with buffer := [] })

/-- Adding a sequence of items (each at clock reading `now`) with no flush
call in between; the per-add flush hints are not acted upon. -/
def BatchWriter.addSeq {α : Type} (b : BatchWriter α) (items : List α)
    (now : ℚ) : BatchWriter α :=
  match items with
  | [] => b
  | x :: xs => ((b.add x now).1).addSeq xs now

/-! ## BatchSyncManager: batch_sync_manager.py

Dates (`datetime.date`) are modelled as naturals (proleptic ordinals), so
`date.min` is the minimum `0` of the type.  `datetime.now()` readings are
naturals supplied by the caller; `strftime('%Y%m%d_%H%M%S')` is modelled as
decimal rendering of that reading. -/

/-- A `Stock` ORM row, restricted to the fields the manager reads. -/
structure Stock where
  ts_code : String
  name : String
  is_active : Bool
deriving DecidableEq, Repr

/-- Whether `needle` occurs as a substring of a character list. -/
def subListOccurs (needle : List Char) : List Char → Bool
  | [] => needle.isPrefixOf []
  | c :: rest => needle.isPrefixOf (c :: rest) || subListOccurs needle rest

/-- Python's `needle in hay` on strings. -/
def strOccurs (needle hay : String) : Bool :=
  subListOccurs needle.data hay.data

/-- The ST filter
`any(keyword in s.name for keyword in ['ST', '*ST', '退'])`
(batch_sync_manager.py lines 48 and 117). -/
def isSTName (name : String) : Bool :=
  strOccurs "ST" name || strOccurs "*ST" name || strOccurs "退" name

/-- The database reads `create_batches` performs: the `Stock` rows in query
order, the per-stock latest K-line date
(`akshare_service._get_latest_kline_date`), and the latest trade date
(`akshare_service._get_latest_trade_date`). -/
structure DbView where
  stocks : List Stock
  latest_kline : String → Option ℕ
  latest_trade_date : ℕ

/-- A `stock_priority` entry (lines 143-149):
`{'stock': stock, 'latest_date': latest_date or date.min}`. -/
structure StockPriority where
  stock : Stock
  latest_date : ℕ
deriving DecidableEq, Repr

/-- The sort key order of line 151: ascending `latest_date`. -/
def prioLe (a b : StockPriority) : Prop :=
  a.latest_date ≤ b.latest_date

instance : DecidableRel prioLe := fun a b =>
  inferInstanceAs (Decidable (a.latest_date ≤ b.latest_date))

instance : IsTotal StockPriority prioLe :=
  ⟨fun a b => Nat.le_total a.latest_date b.latest_date⟩

instance : IsTrans StockPriority prioLe :=
  ⟨fun _ _ _ hab hbc => Nat.le_trans hab hbc⟩

/-- A batch dict as built on lines 163-171. -/
structure Batch where
  batch_id : String
  batch_index : ℕ
  total_batches : ℕ
  stocks : List StockPriority
  stock_count : ℕ
  status : String
  created_at : ℕ
deriving DecidableEq, Repr

/-- The value returned by `create_batches`: a bare list on the early-exit
path of line 120, a `(batches, batch_id_prefix)` tuple otherwise
(line 174). -/
inductive CreateBatchesResult where
  | bareList (batches : List Batch)
  | pairResult (batches : List Batch) (pfx : String)
deriving DecidableEq, Repr

/-- The active non-ST stocks `create_batches` keeps on lines 113-117. -/
def activeNonST (dbv : DbView) : List Stock :=
  (dbv.stocks.filter (fun s => s.is_active)).filter
    (fun s => !(isSTName s.name))

/-- The skip-if-fresh keep predicate of lines 131-137: a stock is kept when
its latest K-line date is missing or strictly before the latest trade
date. -/
def needsSync (dbv : DbView) (s : Stock) : Bool :=
  match dbv.latest_kline s.ts_code with
  | some d => decide (d < dbv.latest_trade_date)
  | none => true

/-- The sorted `stock_priority` list of lines 142-151 for a given post-ST,
post-filter stock list. -/
def sortedPriority (dbv : DbView) (stocks : List Stock) :
    List StockPriority :=
  List.insertionSort prioLe
    (stocks.map (fun s =>
      { stock := s, latest_date := (dbv.latest_kline s.ts_code).getD 0 }))

/-- `create_batches(db, force_full_sync, batch_id_prefix)`
(batch_sync_manager.py lines 97-174), with `bsize` the manager's
`batch_size` and `now` the `datetime.now()` reading. -/
def create_batches (dbv : DbView) (bsize : ℕ) (force_full_sync : Bool)
    (pfx0 : Option String) (now : ℕ) : CreateBatchesResult :=
  -- `if not batch_id_prefix: batch_id_prefix = datetime.now().strftime(...)`
  let pfx := match pfx0 with
    | some p => if p = "" then toString now else p
    | none => toString now
  let stocks := activeNonST dbv
  if stocks = [] then .bareList []
  else
    let stocks1 := if force_full_sync then stocks
      else stocks.filter (needsSync dbv)
    let sorted := sortedPriority dbv stocks1
    let total := (sorted.length + bsize - 1) / bsize
    let batches := (List.range total).map (fun k =>
      { batch_id := pfx ++ "_" ++ toString (k + 1)
        batch_index := k + 1
        total_batches := total
        stocks := (sorted.drop (k * bsize)).take bsize
        stock_count := ((sorted.drop (k * bsize)).take bsize).length
        status := "pending"
        created_at := now })
    .pairResult batches pfx

/-- Python's `round(x, 2)` on the progress percentage.  (Python rounds
half-to-even; this rounds half away from zero at exact ties, which no
published progress value hits: ties require `(i-1)*10000/total` to be an
odd half-integer.) -/
def round2 (q : ℚ) : ℚ := (round (q * 100) : ℚ) / 100

/-- An entry of the global `_batch_progress_store` (lines 201-215 and the
updates of lines 240-248 and 307-316). -/
structure BatchProgress where
  batch_id : String
  batch_index : ℕ
  total_batches : ℕ
  total_count : ℕ
  current_index : ℕ
  current_stock : Option (String × String)
  progress : ℚ
  status : String
  succeeded_count : ℕ
  failed_count : ℕ
  skipped_count : ℕ
  start_time : ℕ
  end_time : Option ℕ
  message : String
deriving DecidableEq, Repr

/-- The module-level `_batch_progress_store: Dict[str, Dict]`. -/
def ProgressStore : Type := List (String × BatchProgress)

/-- Store lookup `_batch_progress_store.get(batch_id)`. -/
def lookupProg : ProgressStore → String → Option BatchProgress
  | [], _ => none
  | (k, v) :: rest, bid => if k = bid then some v else lookupProg rest bid

/-- Store assignment `_batch_progress_store[batch_id] = ...`. -/
def setProg : ProgressStore → String → BatchProgress → ProgressStore
  | [], bid, p => [(bid, p)]
  | (k, v) :: rest, bid, p =>
      if k = bid then (bid, p) :: rest else (k, v) :: setProg rest bid p

/-- `get_batch_execution_progress` (lines 75-85): a pure read of the store,
`None` when the batch id is unknown. -/
def get_batch_execution_progress (store : ProgressStore) (batch_id : String) :
    Option BatchProgress :=
  lookupProg store batch_id

/-- The outcome of `akshare_service.sync_stock_kline_to_db` for one stock:
a result dict with `success` true, one with `success` false and a message,
or a raised exception (whose text models `type(e).__name__: str(e)`). -/
inductive SyncResult where
  | ok (count : ℕ) (sync_mode : String)
  | failRes (msg : String)
  | excRaise (msg : String)
deriving DecidableEq, Repr

/-- A `succeeded` list entry (lines 268-273). -/
structure SucceededItem where
  ts_code : String
  name : String
  count : ℕ
  sync_mode : String
deriving DecidableEq, Repr

/-- A `failed` list entry (lines 275-288). -/
structure FailedItem where
  ts_code : String
  name : String
  error : String
deriving DecidableEq, Repr

/-- The result dict of `execute_batch` (lines 291-303). -/
structure BatchResult where
  batch_id : String
  batch_index : ℕ
  total_batches : ℕ
  success : Bool
  message : String
  total : ℕ
  skipped : ℕ
  succeeded_count : ℕ
  failed_count : ℕ
  succeeded : List SucceededItem
  failed : List FailedItem
deriving DecidableEq, Repr

/-- The per-item recency skip check of lines 253-258:
`not force_full_sync and latest_date and latest_date >= recent_threshold`
(a `date` object is always truthy, so the middle conjunct is vacuous). -/
def shouldSkipItem (force_full_sync : Bool) (recent_threshold : ℕ)
    (latest_date : ℕ) : Bool :=
  !force_full_sync && decide (recent_threshold ≤ latest_date)

/-- The accumulator of the `for i, item in enumerate(stocks, 1)` loop of
`execute_batch` (lines 226-288). -/
structure EbState where
  store : ProgressStore
  succeeded : List SucceededItem
  failed : List FailedItem
  skipped : ℕ

/-- The body of the item loop of `execute_batch`, iterated over the
remaining items with `i` the 1-based index of the next one.  `syncFn` maps
a ts_code to the outcome of `sync_stock_kline_to_db` for it. -/
def ebLoop (batch_id : String) (bidx tbat total : ℕ)
    (syncFn : String → SyncResult) (force_full_sync : Bool)
    (recent_threshold : ℕ) :
    List StockPriority → ℕ → EbState → EbState
  | [], _, st => st
  | item :: rest, i, st =>
    let stock := item.stock
    let progress : ℚ := (i - 1 : ℚ) / (total : ℚ) * 100
    let message := "[批次 " ++ toString bidx ++ "/" ++ toString tbat ++
      "] [" ++ toString i ++ "/" ++ toString total ++ "] 同步 " ++
      stock.ts_code ++ " " ++ stock.name
    let store1 := match lookupProg st.store batch_id with
      | some p => setProg st.store batch_id
          { p with current_index := i,
                   current_stock := some (stock.ts_code, stock.name),
                   progress := round2 progress,
                   message := message }
      | none => st.store
    let acc :=
      if shouldSkipItem force_full_sync recent_threshold item.latest_date then
        (st.succeeded, st.failed, st.skipped + 1)
      else
        match syncFn stock.ts_code with
        | .ok count mode =>
            (st.succeeded ++
              [{ ts_code := stock.ts_code, name := stock.name,
                 count := count, sync_mode := mode }], st.failed, st.skipped)
        | .failRes msg =>
            (st.succeeded, st.failed ++
              [{ ts_code := stock.ts_code, name := stock.name,
                 error := msg }], st.skipped)
        | .excRaise msg =>
            -- the per-item `except Exception` of lines 281-288
            (st.succeeded, st.failed ++
              [{ ts_code := stock.ts_code, name := stock.name,
                 error := msg }], st.skipped)
    ebLoop batch_id bidx tbat total syncFn force_full_sync recent_threshold
      rest (i + 1) ⟨store1, acc.1, acc.2.1, acc.2.2⟩

/-- The initial `_batch_progress_store[batch_id]` record of
`execute_batch` (lines 201-215). -/
def initProgress (batch : Batch) (total_count tStart : ℕ) : BatchProgress :=
  { batch_id := batch.batch_id
    batch_index := batch.batch_index
    total_batches := batch.total_batches
    total_count := total_count
    current_index := 0
    current_stock := none
    progress := 0
    status := "running"
    succeeded_count := 0
    failed_count := 0
    skipped_count := 0
    start_time := tStart
    end_time := none
    message := "准备执行批次 " ++ toString batch.batch_index ++ "/" ++
      toString batch.total_batches }

/-- The result dict `execute_batch` returns (lines 291-303). -/
def ebResult (batch : Batch) (fin : EbState) (total_count : ℕ) :
    BatchResult :=
  { batch_id := batch.batch_id
    batch_index := batch.batch_index
    total_batches := batch.total_batches
    success := fin.failed.length = 0
    message := "批次 " ++ toString batch.batch_index ++ " 完成"
    total := total_count
    skipped := fin.skipped
    succeeded_count := fin.succeeded.length
    failed_count := fin.failed.length
    succeeded := fin.succeeded
    failed := fin.failed }

/-- The terminal progress record of `execute_batch` (lines 305-316):
status `completed` exactly when the failed list is empty, else
`completed_with_errors`, with `progress` forced to 100. -/
def finalProgress (batch : Batch) (fin : EbState) (p : BatchProgress)
    (total_count tEnd : ℕ) : BatchProgress :=
  { p with
    current_index := total_count
    progress := 100
    status := if fin.failed.length = 0 then "completed"
              else "completed_with_errors"
    succeeded_count := fin.succeeded.length
    failed_count := fin.failed.length
    skipped_count := fin.skipped
    message := "批次 " ++ toString batch.batch_index ++ " 完成：成功 " ++
      toString fin.succeeded.length ++ "，失败 " ++
      toString fin.failed.length ++ "，跳过 " ++ toString fin.skipped
    end_time := some tEnd }

/-- The final progress-store update of `execute_batch` (lines 305-316). -/
def finalizeStore (batch : Batch) (fin : EbState)
    (total_count tEnd : ℕ) : ProgressStore :=
  match lookupProg fin.store batch.batch_id with
  | some p => setProg fin.store batch.batch_id
      (finalProgress batch fin p total_count tEnd)
  | none => fin.store

/-- `execute_batch(db, batch, force_full_sync)` (lines 176-322).  `today`
is the `date.today()` reading, `tStart`/`tEnd` the `datetime.now()`
readings at entry and at finalization.  Returns the result dict and the
updated progress store. -/
def execute_batch (store : ProgressStore) (batch : Batch)
    (syncFn : String → SyncResult) (force_full_sync : Bool)
    (today tStart tEnd : ℕ) : BatchResult × ProgressStore :=
  let total_count := batch.stocks.length
  let store0 := setProg store batch.batch_id
    (initProgress batch total_count tStart)
  let recent_threshold := today - 7
  let fin := ebLoop batch.batch_id batch.batch_index batch.total_batches
    total_count syncFn force_full_sync recent_threshold batch.stocks 1
    ⟨store0, [], [], 0⟩
  (ebResult batch fin total_count, finalizeStore batch fin total_count tEnd)

/-! ## Shared association-list lemmas -/

theorem lookupTask_setTask_self (m : TaskMap) (k : String) (v : TaskInfo) :
    lookupTask (setTask m k v) k = some v := by
  induction m with
  | nil => simp [setTask, lookupTask]
  | cons hd tl ih =>
    obtain ⟨k', v'⟩ := hd
    by_cases h : k' = k
    · subst h; simp [setTask, lookupTask]
    · simp [setTask, lookupTask, h, ih]

theorem lookupTask_setTask_ne (m : TaskMap) (k tid : String) (v : TaskInfo)
    (h : k ≠ tid) : lookupTask (setTask m k v) tid = lookupTask m tid := by
  induction m with
  | nil => simp [setTask, lookupTask, h]
  | cons hd tl ih =>
    obtain ⟨k', v'⟩ := hd
    by_cases h' : k' = k
    · subst h'; simp [setTask, lookupTask, h]
    · by_cases h'' : k' = tid
      · subst h''; simp [setTask, lookupTask, h']
      · simp [setTask, lookupTask, h', h'', ih]

theorem lookupProg_setProg_self (m : ProgressStore) (k : String)
    (v : BatchProgress) : lookupProg (setProg m k v) k = some v := by
  induction m with
  | nil => simp [setProg, lookupProg]
  | cons hd tl ih =>
    obtain ⟨k', v'⟩ := hd
    by_cases h : k' = k
    · subst h; simp [setProg, lookupProg]
    · simp [setProg, lookupProg, h, ih]

/-! ## Claim C4: the dual limiter -/

/-- **C4.** `ConcurrentRateLimiter.acquire` first obtains a slot from the
counting semaphore of fixed capacity `max_concurrent` (blocking — `none` —
when all slots are taken), then, if the elapsed time since the previous
acquisition's timestamp is below `1/rate_per_second`, sleeps exactly the
remainder before recording a fresh clock reading as the new
last-acquisition timestamp; `release` decrements only the semaphore and
leaves the last-acquisition timestamp and all other rate state unchanged. -/
theorem C4_dual_limiter_acquire_release (s : ConcurrentRateLimiter)
    (now now2 : ℚ) (hslot : s.in_flight < s.max_concurrent) :
    (∃ s' sleep, s.acquire now now2 = some (s', sleep)
      ∧ s'.in_flight = s.in_flight + 1
      ∧ s'.last_request_time = now2
      ∧ s'.max_concurrent = s.max_concurrent
      ∧ s'.rate_per_second = s.rate_per_second
      ∧ (now - s.last_request_time < 1 / s.rate_per_second →
          sleep = 1 / s.rate_per_second - (now - s.last_request_time))
      ∧ (1 / s.rate_per_second ≤ now - s.last_request_time → sleep = 0))
    ∧ (∀ t : ConcurrentRateLimiter, ¬ t.in_flight < t.max_concurrent →
        ∀ u u2 : ℚ, t.acquire u u2 = none)
    ∧ (∀ t : ConcurrentRateLimiter,
        t.release.last_request_time = t.last_request_time
        ∧ t.release.rate_per_second = t.rate_per_second
        ∧ t.release.max_concurrent = t.max_concurrent
        ∧ t.release.in_flight = t.in_flight - 1) := by
  refine ⟨⟨{ s with in_flight := s.in_flight + 1, last_request_time := now2 },
      if now - s.last_request_time < 1 / s.rate_per_second
        then 1 / s.rate_per_second - (now - s.last_request_time) else 0,
      ?_, rfl, rfl, rfl, rfl, ?_, ?_⟩, ?_, ?_⟩
  · simp [ConcurrentRateLimiter.acquire, hslot]
  · intro h
    rw [if_pos h]
  · intro h
    rw [if_neg (not_lt.mpr h)]
  · intro t ht u u2
    simp [ConcurrentRateLimiter.acquire, ht]
  · intro t
    exact ⟨rfl, rfl, rfl, rfl⟩

/-- Witness for C4 at a concrete limiter with a free slot. -/
theorem C4_dual_limiter_acquire_release_witness :
    ∃ s' sleep,
      (ConcurrentRateLimiter.init 10 2).acquire 0 1 = some (s', sleep)
      ∧ s'.in_flight = 0 + 1
      ∧ s'.last_request_time = 1
      ∧ s'.max_concurrent = 10
      ∧ s'.rate_per_second = 2
      ∧ ((0 : ℚ) - 0 < 1 / 2 → sleep = 1 / 2 - ((0 : ℚ) - 0))
      ∧ ((1 : ℚ) / 2 ≤ 0 - 0 → sleep = 0) :=
  (C4_dual_limiter_acquire_release (ConcurrentRateLimiter.init 10 2) 0 1
    (by decide)).1

/-! ## Claim C10: the bare-list early return of create_batches -/

/-- **C10.** When the active non-ST stock list is empty, `create_batches`
returns the bare empty list (the `.bareList` shape) rather than the
`(batches, prefix)` pair it returns for every non-empty input, so the
return shape differs at this edge case. -/
theorem C10_create_batches_empty_shape (dbv : DbView) (bsize : ℕ)
    (force_full_sync : Bool) (pfx0 : Option String) (now : ℕ) :
    (activeNonST dbv = [] →
      create_batches dbv bsize force_full_sync pfx0 now =
        .bareList []
      ∧ ∀ bs q, create_batches dbv bsize force_full_sync pfx0 now ≠
          .pairResult bs q)
    ∧ (activeNonST dbv ≠ [] →
      ∃ bs q, create_batches dbv bsize force_full_sync pfx0 now =
        .pairResult bs q) := by
  constructor
  · intro h
    constructor
    · simp [create_batches, h]
    · intro bs q
      simp [create_batches, h]
  · intro h
    cases he : create_batches dbv bsize force_full_sync pfx0 now with
    | bareList bs => exact absurd he (by simp [create_batches, h])
    | pairResult bs q => exact ⟨bs, q, rfl⟩

/-- Witness for C10: an all-inactive database view (empty case) and a
one-stock view (non-empty case). -/
theorem C10_create_batches_empty_shape_witness :
    (create_batches ⟨[⟨"000001.SZ", "平安银行", false⟩], fun _ => none, 5⟩
        500 false (some "plan") 7 = .bareList []
      ∧ ∀ bs q,
        create_batches ⟨[⟨"000001.SZ", "平安银行", false⟩], fun _ => none, 5⟩
          500 false (some "plan") 7 ≠ .pairResult bs q)
    ∧ (∃ bs q,
        create_batches ⟨[⟨"000001.SZ", "平安银行", true⟩], fun _ => none, 5⟩
          500 false (some "plan") 7 = .pairResult bs q) :=
  ⟨(C10_create_batches_empty_shape
      ⟨[⟨"000001.SZ", "平安银行", false⟩], fun _ => none, 5⟩
      500 false (some "plan") 7).1 (by decide),
   (C10_create_batches_empty_shape
      ⟨[⟨"000001.SZ", "平安银行", true⟩], fun _ => none, 5⟩
      500 false (some "plan") 7).2 (by decide)⟩

/-! ## Claim C9: cancel_task case analysis -/

/-- **C9.** For every task known to the queue: `cancel_task` returns true
and transitions the task directly to CANCELLED when it is PENDING; returns
true and only sets the controller's cancellation flag — leaving the status
(and progress/result/error) unchanged — when it is RUNNING; and returns
false, leaving the map untouched, whenever the task is in a terminal state
(SUCCESS, FAILED, CANCELLED). -/
theorem C9_cancel_task_cases (tasks : TaskMap) (tid : String)
    (task : TaskInfo) (hlk : lookupTask tasks tid = some task) :
    (task.status = .pending →
      (cancel_task tasks tid).1 = true
      ∧ lookupTask (cancel_task tasks tid).2 tid =
          some { task with status := .cancelled,
                           message := "任务已被取消（未开始执行）" })
    ∧ (∀ c, task.status = .running → task.controller = some c →
      (cancel_task tasks tid).1 = true
      ∧ lookupTask (cancel_task tasks tid).2 tid =
          some { task with controller := some c.request_cancel,
                           message := "正在取消任务..." })
    ∧ (task.status = .success ∨ task.status = .failed ∨
        task.status = .cancelled →
      cancel_task tasks tid = (false, tasks)) := by
  refine ⟨?_, ?_, ?_⟩
  · intro hst
    simp [cancel_task, hlk, hst, lookupTask_setTask_self]
  · intro c hst hc
    simp [cancel_task, hlk, hst, hc, lookupTask_setTask_self]
  · rintro (hst | hst | hst) <;> simp [cancel_task, hlk, hst]

/-- Witness for C9 on concrete one-task maps, one per branch: a PENDING
task is cancelled, a RUNNING task gets its flag set with status unchanged,
a SUCCESS task yields false. -/
theorem C9_cancel_task_cases_witness :
    ((cancel_task
        [("a", ⟨"a", "sync", .pending, 0, "", none, none, 0, none, none,
          some ⟨false, false⟩⟩)] "a").1 = true
      ∧ (lookupTask (cancel_task
          [("a", ⟨"a", "sync", .pending, 0, "", none, none, 0, none, none,
            some ⟨false, false⟩⟩)] "a").2 "a").map TaskInfo.status =
          some .cancelled)
    ∧ ((cancel_task
        [("b", ⟨"b", "sync", .running, 5, "", none, none, 0, none, none,
          some ⟨false, false⟩⟩)] "b").1 = true
      ∧ (lookupTask (cancel_task
          [("b", ⟨"b", "sync", .running, 5, "", none, none, 0, none, none,
            some ⟨false, false⟩⟩)] "b").2 "b").map TaskInfo.status =
          some .running)
    ∧ cancel_task
        [("c", ⟨"c", "sync", .success, 100, "", none, none, 0, none, none,
          some ⟨false, false⟩⟩)] "c" =
        (false,
          [("c", ⟨"c", "sync", .success, 100, "", none, none, 0, none, none,
            some ⟨false, false⟩⟩)]) := by
  refine ⟨?_, ?_, ?_⟩
  · have h := (C9_cancel_task_cases
      [("a", ⟨"a", "sync", .pending, 0, "", none, none, 0, none, none,
        some ⟨false, false⟩⟩)] "a"
      ⟨"a", "sync", .pending, 0, "", none, none, 0, none, none,
        some ⟨false, false⟩⟩ rfl).1 rfl
    exact ⟨h.1, by rw [h.2]; rfl⟩
  · have h := ((C9_cancel_task_cases
      [("b", ⟨"b", "sync", .running, 5, "", none, none, 0, none, none,
        some ⟨false, false⟩⟩)] "b"
      ⟨"b", "sync", .running, 5, "", none, none, 0, none, none,
        some ⟨false, false⟩⟩ rfl).2.1) ⟨false, false⟩ rfl rfl
    exact ⟨h.1, by rw [h.2]; rfl⟩
  · exact (C9_cancel_task_cases
      [("c", ⟨"c", "sync", .success, 100, "", none, none, 0, none, none,
        some ⟨false, false⟩⟩)] "c"
      ⟨"c", "sync", .success, 100, "", none, none, 0, none, none,
        some ⟨false, false⟩⟩ rfl).2.2 (Or.inl rfl)

/-! ## Claim C1: cancelling a PENDING task does not stop the worker

`cancel_task` on a PENDING task (improved_task_queue.py lines 321-325) sets
`task.status = CANCELLED` but never calls `request_cancel`, while the
worker's pre-run re-check (line 244) reads `task.controller.check_cancelled()`
— the flag, not the status.  A task cancelled while PENDING is therefore
still executed when a worker later dequeues it. -/

/-- **C1** fails on the code: submit a task, cancel it while PENDING
(`cancel_task` returns true and the status becomes CANCELLED), then let a
worker dequeue it.  The pre-run check passes (the flag was never set), the
executor IS invoked, and the task even ends in SUCCESS. -/
theorem C1_pending_cancel_executor_still_runs :
    (cancel_task (submitTask [] "t1" "sync_daily" 0) "t1").1 = true
    ∧ (lookupTask (cancel_task (submitTask [] "t1" "sync_daily" 0) "t1").2
        "t1").map TaskInfo.status = some .cancelled
    ∧ (runWorkerItem (cancel_task (submitTask [] "t1" "sync_daily" 0) "t1").2
        "t1" (fun t => ({ t with progress := 50 }, .normal)) 1 2).2 = true
    ∧ (lookupTask (runWorkerItem
        (cancel_task (submitTask [] "t1" "sync_daily" 0) "t1").2
        "t1" (fun t => ({ t with progress := 50 }, .normal)) 1 2).1
        "t1").map TaskInfo.status = some .success :=
  ⟨rfl, rfl, rfl, rfl⟩

/-! ## Claim C5: BatchWriter thresholds -/

theorem addSeq_buffer {α : Type} (items : List α) :
    ∀ (b : BatchWriter α) (now : ℚ),
    (b.addSeq items now).buffer = b.buffer ++ items := by
  induction items with
  | nil => intro b now; simp [BatchWriter.addSeq]
  | cons z zs ih =>
    intro b now
    simp [BatchWriter.addSeq, ih, BatchWriter.add]

theorem addSeq_thresholds {α : Type} (items : List α) :
    ∀ (b : BatchWriter α) (now : ℚ),
    (b.addSeq items now).batch_size = b.batch_size
    ∧ (b.addSeq items now).flush_interval = b.flush_interval := by
  induction items with
  | nil => intro b now; exact ⟨rfl, rfl⟩
  | cons z zs ih =>
    intro b now
    simpa [BatchWriter.addSeq, BatchWriter.add] using ih (b.add z now).1 now

theorem addSeq_last_flush {α : Type} (items : List α) :
    ∀ (b : BatchWriter α) (now : ℚ), b.last_flush = now →
    (b.addSeq items now).last_flush = now := by
  induction items with
  | nil => intro b now h; simpa [BatchWriter.addSeq] using h
  | cons z zs ih =>
    intro b now h
    refine ih (b.add z now).1 now ?_
    simp only [BatchWriter.add]
    split <;> simp [h]

/-- **C5.** `add` appends the item and reports whether a flush should occur
(count threshold reached OR time threshold elapsed) without flushing
itself; `get_batch` atomically copies and clears the buffer; for a fresh
writer with size threshold `S ≥ 2` and time threshold `T > 0`, after adding
exactly `S` items the next `add` reports `should_flush = true`, and after
`get_batch` the buffer is empty and an immediate subsequent `add` does not
report `should_flush = true`. -/
theorem C5_batch_writer_thresholds (α : Type) (S : ℕ) (T t0 : ℚ)
    (items : List α) (x y : α)
    (hS : 2 ≤ S) (hT : 0 < T) (hlen : items.length = S) :
    (∀ (b : BatchWriter α) (z : α) (now : ℚ),
      (b.add z now).1.buffer = b.buffer ++ [z]
      ∧ (b.add z now).2 =
          (decide (b.batch_size ≤ b.buffer.length + 1) ||
           decide (b.flush_interval ≤ now - b.last_flush)))
    ∧ (∀ b : BatchWriter α,
        b.get_batch.1 = b.buffer ∧ b.get_batch.2.buffer = [])
    ∧ ((((⟨S, T, [], t0⟩ : BatchWriter α).addSeq items t0).add x t0).2 = true)
    ∧ ((((⟨S, T, [], t0⟩ : BatchWriter α).addSeq items t0).get_batch.2.add
          y t0).2 = false) := by
  have hbuf := addSeq_buffer items (⟨S, T, [], t0⟩ : BatchWriter α) t0
  have hth := addSeq_thresholds items (⟨S, T, [], t0⟩ : BatchWriter α) t0
  have hlf := addSeq_last_flush items (⟨S, T, [], t0⟩ : BatchWriter α) t0 rfl
  refine ⟨?_, ?_, ?_, ?_⟩
  · intro b z now
    constructor
    · simp [BatchWriter.add]
    · simp [BatchWriter.add]
  · intro b
    exact ⟨rfl, rfl⟩
  · have hlen' : ((⟨S, T, [], t0⟩ : BatchWriter α).addSeq items
        t0).buffer.length = S := by
      rw [hbuf]; simpa using hlen
    have hle : ((⟨S, T, [], t0⟩ : BatchWriter α).addSeq items
        t0).batch_size ≤ ((⟨S, T, [], t0⟩ : BatchWriter α).addSeq items
        t0).buffer.length + 1 := by
      rw [hlen', hth.1]
      exact Nat.le_succ S
    simp [BatchWriter.add, hle]
  · have h1 : ¬ (S ≤ 0 + 1) := by omega
    have h2 : ¬ (T ≤ t0 - t0) := by
      simpa using hT.not_le
    simp [BatchWriter.add, BatchWriter.get_batch, hth.1, hth.2, hlf, h1, h2,
      hT]

/-- Witness for C5 with `S = 2`, `T = 1` and two buffered items. -/
theorem C5_batch_writer_thresholds_witness :
    ((((⟨2, 1, [], 0⟩ : BatchWriter ℕ).addSeq [10, 20] 0).add 30 0).2 = true)
    ∧ ((((⟨2, 1, [], 0⟩ : BatchWriter ℕ).addSeq [10, 20] 0).get_batch.2.add
        40 0).2 = false) :=
  ⟨(C5_batch_writer_thresholds ℕ 2 1 0 [10, 20] 30 40 (by decide)
      (by norm_num) rfl).2.2.1,
   (C5_batch_writer_thresholds ℕ 2 1 0 [10, 20] 30 40 (by decide)
      (by norm_num) rfl).2.2.2⟩

/-! ## Claim C8: executor exceptions are caught at the worker boundary -/

theorem runWorkerItem_lookup_ne (tasks : TaskMap) (k tid : String)
    (ex : Executor) (a b : ℚ) (h : k ≠ tid) :
    lookupTask (runWorkerItem tasks k ex a b).1 tid = lookupTask tasks tid := by
  cases hlk : lookupTask tasks k with
  | none => simp [runWorkerItem, hlk]
  | some task =>
    cases hc : task.controller with
    | none => simp [runWorkerItem, hlk, hc]
    | some c0 =>
      by_cases hcc : c0.check_cancelled
      · simp [runWorkerItem, hlk, hc, hcc, lookupTask_setTask_ne _ _ _ _ h]
      · simp [runWorkerItem, hlk, hc, hcc, lookupTask_setTask_ne _ _ _ _ h]

theorem workerLoop_lookup_not_mem (qs : List (String × Executor)) :
    ∀ (tasks : TaskMap) (tid : String) (a b : ℚ),
    tid ∉ qs.map Prod.fst →
    lookupTask (workerLoop tasks qs a b).1 tid = lookupTask tasks tid := by
  induction qs with
  | nil => intro tasks tid a b _; rfl
  | cons hd tl ih =>
    intro tasks tid a b hmem
    obtain ⟨k, ex⟩ := hd
    rw [List.map_cons, List.mem_cons, not_or] at hmem
    simp only [workerLoop]
    rw [ih _ _ _ _ hmem.2]
    exact runWorkerItem_lookup_ne _ _ _ _ _ _ (fun hk => hmem.1 hk.symm)

theorem workerLoop_log_mem (qs : List (String × Executor)) :
    ∀ (tasks : TaskMap) (a b : ℚ) (x : String),
    x ∈ (workerLoop tasks qs a b).2 → x ∈ qs.map Prod.fst := by
  induction qs with
  | nil => intro tasks a b x hx; simp [workerLoop] at hx
  | cons hd tl ih =>
    intro tasks a b x hx
    obtain ⟨k, ex⟩ := hd
    simp only [workerLoop, List.mem_append] at hx
    rcases hx with hx | hx
    · rcases hsnd : (runWorkerItem tasks k ex a b).2 with _ | _ <;>
        rw [hsnd] at hx <;> simp at hx
      · simp [hx]
    · exact List.mem_cons_of_mem _ (ih _ _ _ _ hx)

/-- The FAILED record the worker stores when the executor raises
(improved_task_queue.py lines 250-253 and 279-284). -/
def failedAfter (ex : Executor) (task : TaskInfo) (a b : ℚ)
    (msg : String) : TaskInfo :=
  let t1 : TaskInfo := { task with
    status := .running
    started_at := some a
    message := "任务正在执行..."
    progress := 0 }
  { (ex t1).1 with
    status := .failed
    completed_at := some b
    error := some msg
    message := "任务执行失败: " ++ msg }

/-- **C8.** When the executor raises an exception while its task is
running, the worker catches it exactly once at the worker boundary: the
task ends FAILED with the error text recorded, the worker does not crash
and proceeds to the next queue item, and the failed task is never
re-executed (its id appears exactly once in the invocation log). -/
theorem C8_executor_exception_caught (tasks : TaskMap) (tid : String)
    (task : TaskInfo) (c : CancellableTask) (ex : Executor) (msg : String)
    (rest : List (String × Executor)) (a b : ℚ)
    (hlk : lookupTask tasks tid = some task)
    (hc : task.controller = some c)
    (hnc : c.should_cancel = false)
    (hex : ∀ t, (ex t).2 = ExecEnd.excRaise msg)
    (hrest : tid ∉ rest.map Prod.fst) :
    (∃ t', lookupTask (workerLoop tasks ((tid, ex) :: rest) a b).1 tid =
        some t'
      ∧ t'.status = .failed ∧ t'.error = some msg
      ∧ t'.message = "任务执行失败: " ++ msg)
    ∧ (workerLoop tasks ((tid, ex) :: rest) a b).2 =
        tid :: (workerLoop (runWorkerItem tasks tid ex a b).1 rest a b).2
    ∧ ((workerLoop tasks ((tid, ex) :: rest) a b).2).count tid = 1 := by
  have hcc : c.check_cancelled = false := hnc
  have hstep : runWorkerItem tasks tid ex a b =
      (setTask tasks tid (failedAfter ex task a b msg), true) := by
    simp [runWorkerItem, failedAfter, hlk, hc, hcc, hex]
  refine ⟨?_, ?_, ?_⟩
  · refine ⟨failedAfter ex task a b msg, ?_, rfl, rfl, rfl⟩
    simp only [workerLoop]
    rw [workerLoop_lookup_not_mem rest _ _ _ _ hrest, hstep]
    exact lookupTask_setTask_self _ _ _
  · simp only [workerLoop, hstep]
    rfl
  · simp only [workerLoop, hstep]
    have hnm : tid ∉ (workerLoop
        (setTask tasks tid (failedAfter ex task a b msg)) rest a b).2 :=
      fun hm => hrest (workerLoop_log_mem rest _ _ _ _ hm)
    simp [List.count_cons, List.count_eq_zero.mpr hnm]

/-- A concrete executor for the C8 witness: it always raises "boom". -/
def c8Exec : Executor := fun t => (t, .excRaise "boom")

/-- A concrete running-capable task for the C8 witness. -/
def c8Task : TaskInfo :=
  ⟨"t", "sync", .pending, 0, "", none, none, 0, none, none,
    some ⟨false, false⟩⟩

/-- Witness for C8: one queued task whose executor raises. -/
theorem C8_executor_exception_caught_witness :
    (∃ t', lookupTask (workerLoop [("t", c8Task)] [("t", c8Exec)] 1 2).1 "t" =
        some t'
      ∧ t'.status = .failed ∧ t'.error = some "boom"
      ∧ t'.message = "任务执行失败: " ++ "boom")
    ∧ (workerLoop [("t", c8Task)] [("t", c8Exec)] 1 2).2 =
        "t" :: (workerLoop
          (runWorkerItem [("t", c8Task)] "t" c8Exec 1 2).1 [] 1 2).2
    ∧ ((workerLoop [("t", c8Task)] [("t", c8Exec)] 1 2).2).count "t" = 1 :=
  C8_executor_exception_caught [("t", c8Task)] "t" c8Task ⟨false, false⟩
    c8Exec "boom" [] 1 2 rfl rfl rfl (fun _ => rfl) (by simp)

/-! ## Claim C3: lazy refill and chunked waiting -/

theorem acquireLoop_sleeps_le_one (n : ℚ) (ts : List ℚ) :
    ∀ (rl rl2 : RateLimiter) (ws : List ℚ),
    acquireLoop n rl ts = some (rl2, ws) → ∀ w ∈ ws, w ≤ 1 := by
  induction ts with
  | nil =>
    intro rl rl2 ws h w hw
    simp only [acquireLoop] at h
    split at h
    · obtain ⟨rfl, rfl⟩ := Prod.mk.injEq .. ▸ Option.some.inj h
      simp at hw
    · exact absurd h (by simp)
  | cons t ts ih =>
    intro rl rl2 ws h w hw
    simp only [acquireLoop] at h
    split at h
    · obtain ⟨rfl, rfl⟩ := Prod.mk.injEq .. ▸ Option.some.inj h
      simp at hw
    · cases hrec : acquireLoop n (refillAt rl t) ts with
      | none => rw [hrec] at h; exact absurd h (by simp)
      | some p =>
        obtain ⟨rl3, ws3⟩ := p
        rw [hrec] at h
        obtain ⟨rfl, rfl⟩ := Prod.mk.injEq .. ▸ Option.some.inj h
        rcases List.mem_cons.mp hw with rfl | hw'
        · exact min_le_right _ _
        · exact ih (refillAt rl t) rl3 ws3 hrec w hw'

/-- **C3.** Each touch of the limiter refills lazily to
`min(burst_capacity, tokens + elapsed * rate)` and records the reading
(no background refill); each wait-loop sleep is computed as
`min(deficit / rate, 1.0)` and is therefore at most one second; while
tokens are insufficient, one loop step sleeps one chunk and recomputes the
remaining deficit from a fresh refill rather than sleeping the whole
theoretical deficit at once; every sleep of a completed `acquire` is at
most one second. -/
theorem C3_refill_and_chunked_wait :
    (∀ (rl : RateLimiter) (now : ℚ),
      (refillAt rl now).tokens = min rl.burst_size
        (rl.tokens + (now - rl.last_update) * rl.requests_per_second)
      ∧ (refillAt rl now).last_update = now)
    ∧ (∀ (rl : RateLimiter) (n : ℚ),
      waitChunk rl n = min ((n - rl.tokens) / rl.requests_per_second) 1
      ∧ waitChunk rl n ≤ 1)
    ∧ (∀ (n : ℚ) (rl : RateLimiter) (t : ℚ) (ts : List ℚ),
      rl.tokens < n →
      acquireLoop n rl (t :: ts) =
        (acquireLoop n (refillAt rl t) ts).map
          (fun p => (p.1, waitChunk rl n :: p.2)))
    ∧ (∀ (rl : RateLimiter) (n t0 : ℚ) (ts : List ℚ)
        (rl2 : RateLimiter) (ws : List ℚ),
      rl.acquire n t0 ts = some (rl2, ws) → ∀ w ∈ ws, w ≤ 1) := by
  refine ⟨fun rl now => ⟨rfl, rfl⟩,
    fun rl n => ⟨rfl, min_le_right _ _⟩, ?_, ?_⟩
  · intro n rl t ts h
    simp only [acquireLoop, if_neg (not_le.mpr h)]
    cases hrec : acquireLoop n (refillAt rl t) ts with
    | none => rfl
    | some p => obtain ⟨rl3, ws3⟩ := p; rfl
  · intro rl n t0 ts rl2 ws h w hw
    unfold RateLimiter.acquire at h
    cases hrec : acquireLoop n (refillAt rl t0) ts with
    | none => rw [hrec] at h; exact absurd h (by simp)
    | some p =>
      obtain ⟨rl3, ws3⟩ := p
      rw [hrec] at h
      obtain ⟨-, rfl⟩ := Prod.mk.injEq .. ▸ Option.some.inj h
      exact acquireLoop_sleeps_le_one n ts (refillAt rl t0) rl3 ws3 hrec w hw

/-- Witness for C3: a limiter with an empty bucket takes one chunked wait
and recomputes from the refill at the next clock reading. -/
theorem C3_refill_and_chunked_wait_witness :
    acquireLoop 1 (RateLimiter.mk 1 2 0 0) (5 :: []) =
      (acquireLoop 1 (refillAt (RateLimiter.mk 1 2 0 0) 5) []).map
        (fun p => (p.1, waitChunk (RateLimiter.mk 1 2 0 0) 1 :: p.2))
    ∧ (∀ w ∈ [(1 : ℚ)], w ≤ 1) :=
  ⟨C3_refill_and_chunked_wait.2.2.1 1 (RateLimiter.mk 1 2 0 0) 5 []
      (by norm_num),
   C3_refill_and_chunked_wait.2.2.2 (RateLimiter.mk 1 2 0 0) 1 0 [5]
      { requests_per_second := 1, burst_size := 2, tokens := 1,
        last_update := 5 } [1]
      (by norm_num [RateLimiter.acquire, acquireLoop, refillAt, waitChunk])⟩

/-! ## Claim C2: token bucket invariant and blocking acquisition -/

theorem refillAt_inv (s : RateLimiter) (now : ℚ)
    (h0 : 0 ≤ s.tokens) (hB : s.tokens ≤ s.burst_size)
    (hr : 0 ≤ s.requests_per_second) (ht : s.last_update ≤ now) :
    0 ≤ (refillAt s now).tokens
    ∧ (refillAt s now).tokens ≤ s.burst_size := by
  constructor
  · refine le_min (le_trans h0 hB) ?_
    have := mul_nonneg (sub_nonneg.mpr ht) hr
    linarith
  · exact min_le_left _ _

theorem acquireLoop_success (n : ℚ) (ts : List ℚ) :
    ∀ (rl : RateLimiter),
    0 < rl.requests_per_second →
    0 ≤ rl.tokens → rl.tokens ≤ rl.burst_size →
    n ≤ rl.burst_size →
    List.Chain' (· ≤ ·) (rl.last_update :: ts) →
    (n ≤ rl.tokens ∨ ∃ t ∈ ts,
      n ≤ rl.tokens + (t - rl.last_update) * rl.requests_per_second) →
    ∃ rl2 ws, acquireLoop n rl ts = some (rl2, ws)
      ∧ n ≤ rl2.tokens ∧ 0 ≤ rl2.tokens
      ∧ rl2.tokens ≤ rl.burst_size ∧ rl2.burst_size = rl.burst_size := by
  induction ts with
  | nil =>
    intro rl _ h0 hB _ _ henough
    have hn : n ≤ rl.tokens := by
      rcases henough with h | ⟨t, ht, _⟩
      · exact h
      · simp at ht
    exact ⟨rl, [], by simp [acquireLoop, hn], hn, h0, hB, rfl⟩
  | cons t ts ih =>
    intro rl hr h0 hB hnB hchain henough
    by_cases hn : n ≤ rl.tokens
    · exact ⟨rl, [], by simp [acquireLoop, hn], hn, h0, hB, rfl⟩
    · have hlu : rl.last_update ≤ t := (List.chain'_cons.mp hchain).1
      have hchain' : List.Chain' (· ≤ ·) (t :: ts) :=
        (List.chain'_cons.mp hchain).2
      have hdelta : 0 ≤ (t - rl.last_update) * rl.requests_per_second :=
        mul_nonneg (sub_nonneg.mpr hlu) hr.le
      have hinv := refillAt_inv rl t h0 hB hr.le hlu
      have henough' : n ≤ (refillAt rl t).tokens ∨ ∃ u ∈ ts,
          n ≤ (refillAt rl t).tokens +
            (u - (refillAt rl t).last_update) *
              (refillAt rl t).requests_per_second := by
        rcases henough with h | ⟨u, hu, hun⟩
        · exact absurd h hn
        · rcases List.mem_cons.mp hu with rfl | hu'
          · exact Or.inl (le_min hnB hun)
          · by_cases hminB : rl.burst_size ≤
                rl.tokens + (t - rl.last_update) * rl.requests_per_second
            · refine Or.inl ?_
              have : (refillAt rl t).tokens = rl.burst_size :=
                min_eq_left hminB
              rw [this]; exact hnB
            · refine Or.inr ⟨u, hu', ?_⟩
              have hmin : (refillAt rl t).tokens =
                  rl.tokens + (t - rl.last_update) * rl.requests_per_second :=
                min_eq_right (le_of_not_le hminB)
              have hring : (t - rl.last_update) * rl.requests_per_second +
                  (u - t) * rl.requests_per_second =
                  (u - rl.last_update) * rl.requests_per_second := by ring
              show n ≤ (refillAt rl t).tokens +
                (u - t) * rl.requests_per_second
              rw [hmin]
              linarith
      obtain ⟨rl2, ws, heq, hn2, h02, hB2, hbs2⟩ :=
        ih (refillAt rl t) hr hinv.1 hinv.2 hnB hchain' henough'
      exact ⟨rl2, waitChunk rl n :: ws, by simp [acquireLoop, hn, heq],
        hn2, h02, hB2, hbs2⟩

/-- **C2.** For a limiter with rate `r > 0` and burst capacity `B > 0`, an
`acquire(n)` with `0 < n ≤ B` starting from a token count in `[0, B]`,
under a non-decreasing wall clock that eventually accrues enough time:
every refill step keeps the token count in `[0, B]`, and `acquire` does not
fail — it completes (only waiting in between), and atomically deducts
exactly `n` from the token count at loop exit, leaving a final count in
`[0, B]`. -/
theorem C2_token_bucket_invariant (rl : RateLimiter) (n t0 : ℚ)
    (ts : List ℚ)
    (hr : 0 < rl.requests_per_second)
    (hn0 : 0 < n) (hnB : n ≤ rl.burst_size)
    (htok0 : 0 ≤ rl.tokens) (htokB : rl.tokens ≤ rl.burst_size)
    (hchain : List.Chain' (· ≤ ·) (rl.last_update :: t0 :: ts))
    (henough : n ≤ rl.tokens +
        (t0 - rl.last_update) * rl.requests_per_second
      ∨ ∃ t ∈ ts, t0 + n / rl.requests_per_second ≤ t) :
    (∀ (s : RateLimiter) (now : ℚ), 0 ≤ s.tokens →
      s.tokens ≤ s.burst_size → 0 ≤ s.requests_per_second →
      s.last_update ≤ now →
      0 ≤ (refillAt s now).tokens
      ∧ (refillAt s now).tokens ≤ s.burst_size)
    ∧ ∃ rlPre ws,
        acquireLoop n (refillAt rl t0) ts = some (rlPre, ws)
        ∧ rl.acquire n t0 ts =
            some ({ rlPre with tokens := rlPre.tokens - n }, ws)
        ∧ n ≤ rlPre.tokens
        ∧ 0 ≤ rlPre.tokens - n
        ∧ rlPre.tokens - n ≤ rl.burst_size := by
  refine ⟨fun s now => refillAt_inv s now, ?_⟩
  have hlu : rl.last_update ≤ t0 := (List.chain'_cons.mp hchain).1
  have hchain' : List.Chain' (· ≤ ·) (t0 :: ts) :=
    (List.chain'_cons.mp hchain).2
  have hinv := refillAt_inv rl t0 htok0 htokB hr.le hlu
  have henough' : n ≤ (refillAt rl t0).tokens ∨ ∃ t ∈ ts,
      n ≤ (refillAt rl t0).tokens +
        (t - (refillAt rl t0).last_update) *
          (refillAt rl t0).requests_per_second := by
    rcases henough with h | ⟨t, ht, htt⟩
    · exact Or.inl (le_min hnB h)
    · refine Or.inr ⟨t, ht, ?_⟩
      have h1 : n / rl.requests_per_second ≤ t - t0 := by linarith
      have hgain : n ≤ (t - t0) * rl.requests_per_second :=
        (div_le_iff₀ hr).mp h1
      have h0' : 0 ≤ (refillAt rl t0).tokens := hinv.1
      show n ≤ (refillAt rl t0).tokens + (t - t0) * rl.requests_per_second
      linarith
  obtain ⟨rlPre, ws, heq, hnPre, h0Pre, hBPre, _⟩ :=
    acquireLoop_success n ts (refillAt rl t0) hr hinv.1 hinv.2 hnB
      hchain' henough'
  have hBPre' : rlPre.tokens ≤ rl.burst_size := hBPre
  refine ⟨rlPre, ws, heq, ?_, hnPre, by linarith, by linarith⟩
  unfold RateLimiter.acquire
  rw [heq]

/-- Witness for C2: an empty bucket with rate 1, burst 2 acquiring one
token; the clock reading two seconds later suffices. -/
theorem C2_token_bucket_invariant_witness :
    ∃ rlPre ws,
      acquireLoop 1 (refillAt (RateLimiter.mk 1 2 0 0) 0) [2] =
        some (rlPre, ws)
      ∧ (RateLimiter.mk 1 2 0 0).acquire 1 0 [2] =
          some ({ rlPre with tokens := rlPre.tokens - 1 }, ws)
      ∧ 1 ≤ rlPre.tokens
      ∧ 0 ≤ rlPre.tokens - 1
      ∧ rlPre.tokens - 1 ≤ (RateLimiter.mk 1 2 0 0).burst_size :=
  (C2_token_bucket_invariant (RateLimiter.mk 1 2 0 0) 1 0 [2]
    (by norm_num) (by norm_num) (by norm_num) (by norm_num) (by norm_num)
    (by simp [List.chain'_cons])
    (Or.inr ⟨2, by simp, by norm_num⟩)).2

/-! ## Claim C6: create_batches is deterministic, sorted, sequential ids -/

/-- The post-filter stock list `create_batches` plans over (lines
122-140). -/
def planStocks (dbv : DbView) (force_full_sync : Bool) : List Stock :=
  if force_full_sync then activeNonST dbv
  else (activeNonST dbv).filter (needsSync dbv)

/-- The batch list built on lines 153-171, factored out of
`create_batches` for reasoning. -/
def planBatches (dbv : DbView) (bsize : ℕ) (force_full_sync : Bool)
    (pfx : String) (now : ℕ) : List Batch :=
  let sorted := sortedPriority dbv (planStocks dbv force_full_sync)
  let total := (sorted.length + bsize - 1) / bsize
  (List.range total).map (fun k =>
    { batch_id := pfx ++ "_" ++ toString (k + 1)
      batch_index := k + 1
      total_batches := total
      stocks := (sorted.drop (k * bsize)).take bsize
      stock_count := ((sorted.drop (k * bsize)).take bsize).length
      status := "pending"
      created_at := now })

theorem create_batches_eq_plan (dbv : DbView) (bsize : ℕ)
    (force_full_sync : Bool) (p : String) (now : ℕ)
    (hp : p ≠ "") (hne : activeNonST dbv ≠ []) :
    create_batches dbv bsize force_full_sync (some p) now =
      .pairResult (planBatches dbv bsize force_full_sync p now) p := by
  simp [create_batches, planBatches, planStocks, hp, hne]

theorem chunksJoin_take {α : Type} (bs : ℕ) (l : List α) (n : ℕ) :
    ((List.range n).map (fun k => (l.drop (k * bs)).take bs)).flatten =
      l.take (n * bs) := by
  induction n with
  | zero => simp
  | succ m ih =>
    rw [List.range_succ, List.map_append, List.flatten_append]
    simp only [List.map_cons, List.map_nil, List.flatten_cons,
      List.flatten_nil, List.append_nil]
    rw [ih, Nat.succ_mul, List.take_add]

theorem planBatches_flatten (dbv : DbView) (bsize : ℕ)
    (force_full_sync : Bool) (p : String) (now : ℕ) (hbs : 0 < bsize) :
    ((planBatches dbv bsize force_full_sync p now).map Batch.stocks).flatten
      = sortedPriority dbv (planStocks dbv force_full_sync) := by
  simp only [planBatches, List.map_map]
  have h := chunksJoin_take bsize
    (sortedPriority dbv (planStocks dbv force_full_sync))
    (((sortedPriority dbv (planStocks dbv force_full_sync)).length +
      bsize - 1) / bsize)
  have hcomp : (Batch.stocks ∘ fun k =>
      ({ batch_id := p ++ "_" ++ toString (k + 1), batch_index := k + 1,
         total_batches := ((sortedPriority dbv
           (planStocks dbv force_full_sync)).length + bsize - 1) / bsize,
         stocks := ((sortedPriority dbv
           (planStocks dbv force_full_sync)).drop (k * bsize)).take bsize,
         stock_count := (((sortedPriority dbv
           (planStocks dbv force_full_sync)).drop (k * bsize)).take
             bsize).length,
         status := "pending", created_at := now } : Batch)) =
      fun k => ((sortedPriority dbv
        (planStocks dbv force_full_sync)).drop (k * bsize)).take bsize :=
    rfl
  rw [hcomp, h]
  apply List.take_of_length_le
  have h1 := Nat.div_add_mod ((sortedPriority dbv
    (planStocks dbv force_full_sync)).length + bsize - 1) bsize
  have h2 := Nat.mod_lt ((sortedPriority dbv
    (planStocks dbv force_full_sync)).length + bsize - 1) hbs
  rw [mul_comm]
  omega

/-- **C6.** For a fixed input set and an explicitly supplied non-empty
batch-id prefix, two runs of `create_batches` with the same
`force_full_sync` flag (at different wall-clock instants) return pairs with
the same prefix, identical batch ids of the form `prefix_k` for
`k = 1 .. N` in sequence, and identical item ordering; the concatenation of
the batches' item lists is exactly the priority-annotated filtered input
sorted ascending by freshness marker (missing dates mapped to the minimal
date), hence stalest-first, and is a permutation of the annotated filtered
input. -/
theorem C6_create_batches_deterministic (dbv : DbView) (bsize : ℕ)
    (force_full_sync : Bool) (p : String) (now1 now2 : ℕ)
    (hp : p ≠ "") (hbs : 0 < bsize) (hne : activeNonST dbv ≠ []) :
    ∃ bs1 bs2,
      create_batches dbv bsize force_full_sync (some p) now1 =
        .pairResult bs1 p
      ∧ create_batches dbv bsize force_full_sync (some p) now2 =
        .pairResult bs2 p
      ∧ bs1.map Batch.batch_id = bs2.map Batch.batch_id
      ∧ bs1.map Batch.stocks = bs2.map Batch.stocks
      ∧ bs1.length = bs2.length
      ∧ bs1.map Batch.batch_id = (List.range bs1.length).map
          (fun k => p ++ "_" ++ toString (k + 1))
      ∧ bs1.map Batch.batch_index = (List.range bs1.length).map
          (fun k => k + 1)
      ∧ (bs1.map Batch.stocks).flatten =
          sortedPriority dbv (planStocks dbv force_full_sync)
      ∧ List.Sorted prioLe ((bs1.map Batch.stocks).flatten)
      ∧ ((bs1.map Batch.stocks).flatten).Perm
          ((planStocks dbv force_full_sync).map (fun s =>
            { stock := s,
              latest_date := (dbv.latest_kline s.ts_code).getD 0 })) := by
  refine ⟨planBatches dbv bsize force_full_sync p now1,
    planBatches dbv bsize force_full_sync p now2,
    create_batches_eq_plan dbv bsize force_full_sync p now1 hp hne,
    create_batches_eq_plan dbv bsize force_full_sync p now2 hp hne,
    ?_, ?_, ?_, ?_, ?_, ?_, ?_, ?_⟩
  · simp [planBatches, List.map_map]
  · simp [planBatches, List.map_map]
  · simp [planBatches]
  · simp [planBatches, List.map_map]
  · simp [planBatches, List.map_map]
  · exact planBatches_flatten dbv bsize force_full_sync p now1 hbs
  · rw [planBatches_flatten dbv bsize force_full_sync p now1 hbs]
    exact List.sorted_insertionSort prioLe _
  · rw [planBatches_flatten dbv bsize force_full_sync p now1 hbs]
    exact List.perm_insertionSort prioLe _

/-- Witness for C6 on a two-stock database view at two distinct clock
readings. -/
theorem C6_create_batches_deterministic_witness :
    ∃ bs1 bs2,
      create_batches
        ⟨[⟨"000001.SZ", "平安银行", true⟩, ⟨"000002.SZ", "万科A", true⟩],
          fun c => if c = "000001.SZ" then some 20 else none, 30⟩
        1 false (some "plan") 7 = .pairResult bs1 "plan"
      ∧ create_batches
        ⟨[⟨"000001.SZ", "平安银行", true⟩, ⟨"000002.SZ", "万科A", true⟩],
          fun c => if c = "000001.SZ" then some 20 else none, 30⟩
        1 false (some "plan") 8 = .pairResult bs2 "plan"
      ∧ bs1.map Batch.batch_id = bs2.map Batch.batch_id
      ∧ bs1.map Batch.stocks = bs2.map Batch.stocks
      ∧ bs1.length = bs2.length
      ∧ bs1.map Batch.batch_id = (List.range bs1.length).map
          (fun k => "plan" ++ "_" ++ toString (k + 1))
      ∧ bs1.map Batch.batch_index = (List.range bs1.length).map
          (fun k => k + 1)
      ∧ (bs1.map Batch.stocks).flatten =
          sortedPriority
            ⟨[⟨"000001.SZ", "平安银行", true⟩, ⟨"000002.SZ", "万科A", true⟩],
              fun c => if c = "000001.SZ" then some 20 else none, 30⟩
            (planStocks
              ⟨[⟨"000001.SZ", "平安银行", true⟩, ⟨"000002.SZ", "万科A", true⟩],
                fun c => if c = "000001.SZ" then some 20 else none, 30⟩
              false)
      ∧ List.Sorted prioLe ((bs1.map Batch.stocks).flatten)
      ∧ ((bs1.map Batch.stocks).flatten).Perm
          ((planStocks
              ⟨[⟨"000001.SZ", "平安银行", true⟩, ⟨"000002.SZ", "万科A", true⟩],
                fun c => if c = "000001.SZ" then some 20 else none, 30⟩
              false).map (fun s =>
            { stock := s,
              latest_date :=
                ((⟨[⟨"000001.SZ", "平安银行", true⟩,
                    ⟨"000002.SZ", "万科A", true⟩],
                  fun c => if c = "000001.SZ" then some 20 else none,
                  30⟩ : DbView).latest_kline s.ts_code).getD 0 })) :=
  C6_create_batches_deterministic
    ⟨[⟨"000001.SZ", "平安银行", true⟩, ⟨"000002.SZ", "万科A", true⟩],
      fun c => if c = "000001.SZ" then some 20 else none, 30⟩
    1 false "plan" 7 8 (by decide) (by decide) (by decide)

/-! ## Claim C7: per-item failures and terminal batch status -/

theorem ebLoop_store_isSome (batch_id : String) (bidx tbat total : ℕ)
    (syncFn : String → SyncResult) (force : Bool) (thr : ℕ)
    (items : List StockPriority) :
    ∀ (i : ℕ) (st : EbState), (lookupProg st.store batch_id).isSome →
    (lookupProg (ebLoop batch_id bidx tbat total syncFn force thr
      items i st).store batch_id).isSome := by
  induction items with
  | nil => intro i st h; simpa [ebLoop] using h
  | cons item rest ih =>
    intro i st h
    simp only [ebLoop]
    apply ih
    cases hl : lookupProg st.store batch_id with
    | none => rw [hl] at h; simp at h
    | some p => simp [hl, lookupProg_setProg_self]

/-- **C7.** For every batch of five items where the third raises and the
other four succeed with none skipped, `execute_batch` catches the per-item
exception, still processes the remaining items, and returns
`failed_count = 1`, `succeeded_count = 4`, overall `success = false`; the
stored progress record ends with terminal status `completed_with_errors`
and `get_batch_execution_progress` reports `progress = 100`.  In general
the stored terminal status is `completed` if and only if the batch had zero
failures. -/
theorem C7_execute_batch_partial_failure (store : ProgressStore)
    (batch : Batch) (syncFn : String → SyncResult) (force_full_sync : Bool)
    (today tStart tEnd : ℕ) (s1 s2 s3 s4 s5 : StockPriority) (e : String)
    (n1 n2 n4 n5 : ℕ) (m1 m2 m4 m5 : String)
    (hstocks : batch.stocks = [s1, s2, s3, s4, s5])
    (hsync1 : syncFn s1.stock.ts_code = .ok n1 m1)
    (hsync2 : syncFn s2.stock.ts_code = .ok n2 m2)
    (hsync3 : syncFn s3.stock.ts_code = .excRaise e)
    (hsync4 : syncFn s4.stock.ts_code = .ok n4 m4)
    (hsync5 : syncFn s5.stock.ts_code = .ok n5 m5)
    (hskip : ∀ item ∈ batch.stocks,
      shouldSkipItem force_full_sync (today - 7) item.latest_date = false) :
    ((execute_batch store batch syncFn force_full_sync today tStart
        tEnd).1.failed_count = 1
      ∧ (execute_batch store batch syncFn force_full_sync today tStart
          tEnd).1.succeeded_count = 4
      ∧ (execute_batch store batch syncFn force_full_sync today tStart
          tEnd).1.skipped = 0
      ∧ (execute_batch store batch syncFn force_full_sync today tStart
          tEnd).1.failed = [⟨s3.stock.ts_code, s3.stock.name, e⟩]
      ∧ (execute_batch store batch syncFn force_full_sync today tStart
          tEnd).1.success = false)
    ∧ (∃ pr, get_batch_execution_progress
          (execute_batch store batch syncFn force_full_sync today tStart
            tEnd).2 batch.batch_id = some pr
        ∧ pr.status = "completed_with_errors" ∧ pr.progress = 100
        ∧ pr.failed_count = 1 ∧ pr.succeeded_count = 4)
    ∧ (∀ (store' : ProgressStore) (batch' : Batch)
        (syncFn' : String → SyncResult) (force' : Bool) (td t1 t2 : ℕ),
        ∃ pr, get_batch_execution_progress
            (execute_batch store' batch' syncFn' force' td t1 t2).2
            batch'.batch_id = some pr
          ∧ (pr.status = "completed" ↔
            (execute_batch store' batch' syncFn' force' td t1
              t2).1.failed_count = 0)) := by
  have hk1 : shouldSkipItem force_full_sync (today - 7) s1.latest_date =
      false := hskip s1 (by rw [hstocks]; simp)
  have hk2 : shouldSkipItem force_full_sync (today - 7) s2.latest_date =
      false := hskip s2 (by rw [hstocks]; simp)
  have hk3 : shouldSkipItem force_full_sync (today - 7) s3.latest_date =
      false := hskip s3 (by rw [hstocks]; simp)
  have hk4 : shouldSkipItem force_full_sync (today - 7) s4.latest_date =
      false := hskip s4 (by rw [hstocks]; simp)
  have hk5 : shouldSkipItem force_full_sync (today - 7) s5.latest_date =
      false := hskip s5 (by rw [hstocks]; simp)
  refine ⟨?_, ?_, ?_⟩
  · simp [execute_batch, ebLoop, ebResult, hstocks, hk1, hk2, hk3, hk4,
      hk5, hsync1, hsync2, hsync3, hsync4, hsync5, lookupProg_setProg_self]
  · simp [execute_batch, ebLoop, ebResult, finalizeStore, finalProgress,
      get_batch_execution_progress, hstocks, hk1, hk2, hk3, hk4, hk5,
      hsync1, hsync2, hsync3, hsync4, hsync5, lookupProg_setProg_self]
  · intro store' batch' syncFn' force' td t1 t2
    have hfin := ebLoop_store_isSome batch'.batch_id batch'.batch_index
      batch'.total_batches batch'.stocks.length syncFn' force' (td - 7)
      batch'.stocks 1
      ⟨setProg store' batch'.batch_id
        (initProgress batch' batch'.stocks.length t1), [], [], 0⟩
      (by simp [lookupProg_setProg_self])
    obtain ⟨q, hq⟩ := Option.isSome_iff_exists.mp hfin
    refine ⟨finalProgress batch'
        (ebLoop batch'.batch_id batch'.batch_index batch'.total_batches
          batch'.stocks.length syncFn' force' (td - 7) batch'.stocks 1
          ⟨setProg store' batch'.batch_id
            (initProgress batch' batch'.stocks.length t1), [], [], 0⟩)
        q batch'.stocks.length t2, ?_, ?_⟩
    · simp only [execute_batch, get_batch_execution_progress,
        finalizeStore, hq, lookupProg_setProg_self]
    · by_cases hz : (ebLoop batch'.batch_id batch'.batch_index
          batch'.total_batches batch'.stocks.length syncFn' force'
          (td - 7) batch'.stocks 1
          ⟨setProg store' batch'.batch_id
            (initProgress batch' batch'.stocks.length t1), [], [], 0⟩
          ).failed.length = 0
      · simp [execute_batch, ebResult, finalProgress, hz]
      · simp [execute_batch, ebResult, finalProgress, hz]

/-- Witness for C7: a concrete five-item batch whose third item's sync
raises. -/
theorem C7_execute_batch_partial_failure_witness :
    ((execute_batch []
        ⟨"b_1", 1, 1,
          [⟨⟨"a", "A", true⟩, 0⟩, ⟨⟨"b", "B", true⟩, 0⟩,
           ⟨⟨"c", "C", true⟩, 0⟩, ⟨⟨"d", "D", true⟩, 0⟩,
           ⟨⟨"e", "E", true⟩, 0⟩], 5, "pending", 0⟩
        (fun c => if c = "c" then .excRaise "boom"
          else .ok 3 "incremental") false 100 11 12).1.failed_count = 1
      ∧ (execute_batch []
        ⟨"b_1", 1, 1,
          [⟨⟨"a", "A", true⟩, 0⟩, ⟨⟨"b", "B", true⟩, 0⟩,
           ⟨⟨"c", "C", true⟩, 0⟩, ⟨⟨"d", "D", true⟩, 0⟩,
           ⟨⟨"e", "E", true⟩, 0⟩], 5, "pending", 0⟩
        (fun c => if c = "c" then .excRaise "boom"
          else .ok 3 "incremental") false 100 11 12).1.succeeded_count = 4)
    ∧ (∃ pr, get_batch_execution_progress
        (execute_batch []
          ⟨"b_1", 1, 1,
            [⟨⟨"a", "A", true⟩, 0⟩, ⟨⟨"b", "B", true⟩, 0⟩,
             ⟨⟨"c", "C", true⟩, 0⟩, ⟨⟨"d", "D", true⟩, 0⟩,
             ⟨⟨"e", "E", true⟩, 0⟩], 5, "pending", 0⟩
          (fun c => if c = "c" then .excRaise "boom"
            else .ok 3 "incremental") false 100 11 12).2 "b_1" = some pr
        ∧ pr.status = "completed_with_errors" ∧ pr.progress = 100) := by
  have h := C7_execute_batch_partial_failure []
    ⟨"b_1", 1, 1,
      [⟨⟨"a", "A", true⟩, 0⟩, ⟨⟨"b", "B", true⟩, 0⟩,
       ⟨⟨"c", "C", true⟩, 0⟩, ⟨⟨"d", "D", true⟩, 0⟩,
       ⟨⟨"e", "E", true⟩, 0⟩], 5, "pending", 0⟩
    (fun c => if c = "c" then .excRaise "boom" else .ok 3 "incremental")
    false 100 11 12
    ⟨⟨"a", "A", true⟩, 0⟩ ⟨⟨"b", "B", true⟩, 0⟩ ⟨⟨"c", "C", true⟩, 0⟩
    ⟨⟨"d", "D", true⟩, 0⟩ ⟨⟨"e", "E", true⟩, 0⟩ "boom" 3 3 3 3
    "incremental" "incremental" "incremental" "incremental"
    rfl rfl rfl rfl rfl rfl (by decide)
  refine ⟨⟨h.1.1, h.1.2.1⟩, ?_⟩
  obtain ⟨pr, hpr, hst, hpg, -, -⟩ := h.2.1
  exact ⟨pr, hpr, hst, hpg⟩

end StockTrade
